import Mathlib

/-!
Shallow embedding of `agentic_security/report_chart.py`.

The module has two functions:
  * `generate_identifiers(data)` — assigns "A1" … "Z26" labels to the rows
    of a pandas DataFrame, raising `TypeError` / `ValueError` /
    `OverflowError` / `IndexError` on bad input;
  * `plot_security_report(table)` — sorts the table by `failureRate`
    descending, assigns identifiers, and renders a polar bar chart into an
    in-memory buffer.

Python numbers are modelled as exact rationals (`ℚ`), Python strings as
`String`, raised exceptions as the `PyErr` sum returned through `Except`.
A pandas DataFrame / `Table` value is modelled by `PyInput`: either a
tabular value (a list of rows plus one presence flag per required column,
so that a missing column can be represented) or a non-tabular value.
-/

namespace ReportChart

attribute [local semireducible] Rat.inv Rat.mul Rat.add Rat.sub

/-- One row of the input table: `module` (text), `failureRate` (numeric,
a percentage), `tokens` (numeric).  Values of absent columns are simply
ignored; column absence is tracked by the flags in `PyInput.table`. -/
structure Row where
  module : String
  failureRate : ℚ
  tokens : ℚ
deriving DecidableEq

/-- The Python exceptions the module can raise.  `typeError` is the spec's
`InvalidInput`, `valueError` on an empty frame is `EmptyInput`,
`overflowError` is `CapacityExceeded`, `keyError` is raised by pandas when
a column named by the payload is missing. -/
inductive PyErr where
  | typeError (msg : String)
  | valueError (msg : String)
  | overflowError (msg : String)
  | indexError (msg : String)
  | keyError (col : String)
deriving DecidableEq

/-- The argument passed to the module's functions: either a tabular value
(the flags record whether the `module`, `failureRate` and `tokens` columns
are present) or a value that is not a recognized tabular structure. -/
inductive PyInput where
  | table (hasModule hasFailureRate hasTokens : Bool) (rows : List Row)
  | nonTable
deriving DecidableEq

instance {ε α : Type} [DecidableEq ε] [DecidableEq α] : DecidableEq (Except ε α) :=
  fun a b =>
    match a, b with
    | .ok x, .ok y => decidable_of_iff (x = y) (by simp)
    | .error x, .error y => decidable_of_iff (x = y) (by simp)
    | .ok _, .error _ => .isFalse (by simp)
    | .error _, .ok _ => .isFalse (by simp)

/-- Python `string.ascii_uppercase`. -/
def alphabet : String := "ABCDEFGHIJKLMNOPQRSTUVWXYZ"

/-- Python `num_letters = len(alphabet)`. -/
def num_letters : Nat := alphabet.length

/-- Python `max_identifiers = num_letters * num_letters`. -/
def max_identifiers : Nat := num_letters * num_letters

/-- The identifier built for 0-based row index `i`:
Python `f"{alphabet[letter_index]}{number}"` with `letter_index = i //
num_letters` and `number = (i % num_letters) + 1`.  The `getD` default is
unreachable because the loop guards `letter_index < num_letters` first. -/
def identifierString (i : Nat) : String :=
  String.singleton (alphabet.data.getD (i / num_letters) 'A') ++
    Nat.repr (i % num_letters + 1)

/-- The `for i in range(data_length)` loop of `generate_identifiers`,
acting on the list of indices: each iteration checks the
`letter_index >= num_letters` guard (raising `IndexError`) and otherwise
appends the identifier for `i`. -/
def genLoop : List Nat → Except PyErr (List String)
  | [] => .ok []
  | i :: rest =>
    if num_letters ≤ i / num_letters then
      .error (.indexError "Identifier generation exceeded the supported range.")
    else
      match genLoop rest with
      | .error e => .error e
      | .ok tl => .ok (identifierString i :: tl)

/-- Embedding of `generate_identifiers(data)`: `TypeError` for a
non-DataFrame argument, `ValueError` for an empty frame, `OverflowError`
for more than `max_identifiers` rows, otherwise the identifier loop. -/
def generate_identifiers (input : PyInput) : Except PyErr (List String) :=
  match input with
  | .nonTable => .error (.typeError "Input argument must be a pandas DataFrame.")
  | .table _ _ _ rows =>
    let data_length := rows.length
    if data_length = 0 then
      .error (.valueError "DataFrame cannot be empty.")
    else if max_identifiers < data_length then
      .error (.overflowError "Cannot generate more than 676 unique identifiers.")
    else
      genLoop (List.range data_length)

/-- Comparison of rows by `failureRate`, the key used by
`data.sort_values("failureRate", ...)`. -/
def rowLe (a b : Row) : Prop := a.failureRate ≤ b.failureRate

instance : DecidableRel rowLe := fun a b =>
  inferInstanceAs (Decidable (a.failureRate ≤ b.failureRate))

instance : IsTotal Row rowLe := ⟨fun a b => le_total a.failureRate b.failureRate⟩

instance : IsTrans Row rowLe := ⟨fun _ _ _ hab hbc => le_trans hab hbc⟩

/-- Embedding of `data.sort_values("failureRate", ascending=False)`.
For `ascending=False`, pandas `nargsort` reverses the values and the
positional index, computes an ascending `argsort` of the reversed values,
and reverses the resulting indexer again.  With a stable ascending
`argsort` (numpy's default kind falls back to insertion sort at these
array sizes) the two reversals cancel on tied keys: the result is a
descending sort in which rows of equal `failureRate` keep their original
relative order.  Modelled accordingly as reversing the input,
insertion-sorting it ascending (Mathlib's `insertionSort` is stable), and
reversing the result.  `reset_index(drop=True)` has no observable effect
here. -/
def sortValuesDesc (rows : List Row) : List Row :=
  (List.insertionSort rowLe rows.reverse).reverse

/-- A color, as an RGB triple of exact rationals. -/
abbrev Rgb := ℚ × ℚ × ℚ

/-- Componentwise linear interpolation between two colors. -/
def lerp (a b : Rgb) (t : ℚ) : Rgb :=
  (a.1 + t * (b.1 - a.1), a.2.1 + t * (b.2.1 - a.2.1), a.2.2 + t * (b.2.2 - a.2.2))

/-- The pastel palette `["#6C5B7B", "#C06C84", "#F67280", "#F8B195"][::-1]`
as RGB triples, in the reversed order the code builds the colormap from. -/
def paletteColors : List Rgb :=
  [(248, 177, 149), (246, 114, 128), (192, 108, 132), (108, 91, 123)]

/-- Embedding of `LinearSegmentedColormap.from_list("custom", colors, N=256)`
applied to a value: piecewise-linear interpolation between the four anchor
colors placed evenly at 0, 1/3, 2/3, 1, with the input clamped to [0, 1].
The 256-level quantization of the continuous map is not modelled. -/
def cmapApply (x : ℚ) : Rgb :=
  let y := max 0 (min 1 x)
  if y ≤ 1 / 3 then lerp (paletteColors.getD 0 (0, 0, 0)) (paletteColors.getD 1 (0, 0, 0)) (3 * y)
  else if y ≤ 2 / 3 then lerp (paletteColors.getD 1 (0, 0, 0)) (paletteColors.getD 2 (0, 0, 0)) (3 * y - 1)
  else lerp (paletteColors.getD 2 (0, 0, 0)) (paletteColors.getD 3 (0, 0, 0)) (3 * y - 2)

/-- Embedding of `matplotlib.colors.Normalize(vmin, vmax)` applied to a
value: matplotlib's `Normalize.__call__` checks `vmin == vmax` first and
fills the result with 0 in that case, so the division is only performed
with a nonzero denominator. -/
def pynormalize (vmin vmax t : ℚ) : ℚ :=
  if vmin = vmax then 0 else (t - vmin) / (vmax - vmin)

/-- Python's `min` over a column, as used by `data["tokens"].min()`.  The
call sites are only reached with nonempty data, so the empty-list default
is unreachable. -/
def listMin : List ℚ → ℚ
  | [] => 0
  | x :: xs => xs.foldl min x

/-- Python's `max` over a column, as used by `max(data["failureRate"])`
and `data["tokens"].max()`.  The call sites are only reached with nonempty
data, so the empty-list default is unreachable. -/
def listMax : List ℚ → ℚ
  | [] => 0
  | x :: xs => xs.foldl max x

/-- Floor of a rational, computed directly on its reduced fraction so that
the kernel can evaluate it (`⌊q⌋ = q.num / q.den` with euclidean
division). -/
def ratFloor (q : ℚ) : ℤ := q.num / (q.den : ℤ)

/-- Ceiling of a rational, computed as `-⌊-q⌋`. -/
def ratCeil (q : ℚ) : ℤ := -ratFloor (-q)

/-- Python `int(q)`: truncation toward zero. -/
def pyInt (q : ℚ) : ℤ :=
  if q < 0 then -ratFloor (-q) else ratFloor q

/-- Embedding of `np.arange(0, stop, 20)`: the multiples of 20 that are
nonnegative and strictly below `stop`; there are `⌈stop / 20⌉` of them
when `stop > 0` and none otherwise. -/
def arange020 (stop : ℚ) : List ℚ :=
  (List.range (ratCeil (stop / 20)).toNat).map (fun i : ℕ => 20 * (i : ℚ))

/-- Embedding of Python `range(0, stop, 20)`: the multiples of 20 that are
nonnegative and strictly below the integer `stop`. -/
def pyRange020 (stop : ℤ) : List ℤ :=
  (List.range ((stop.toNat + 19) / 20)).map (fun i : ℕ => 20 * (i : ℤ))

/-- Whether the figure created by `plt.subplots` was opened, and whether it
was closed by `plt.close(fig)`, during one call of `plot_security_report`. -/
structure RenderState where
  figOpened : Bool
  figClosed : Bool
deriving DecidableEq

/-- The observable content of the image buffer `plot_security_report`
returns: the identifier labels (`set_xticklabels`), the sorted `module` and
`failureRate` columns the bars and the side table are drawn from, the bar
colors, and the radial gridline positions (`set_yticks`) and labels
(`set_yticklabels`).  The PNG byte encoding itself is not modelled. -/
structure Buffer where
  identifiers : List String
  sortedModules : List String
  sortedRates : List ℚ
  barColors : List Rgb
  yticks : List ℚ
  ytickLabels : List String
deriving DecidableEq

/-- Embedding of `plot_security_report(table)`, paired with the figure
state it leaves behind.  The failure points, in the source's order:
the `isinstance` check (`TypeError`); `sort_values("failureRate")`
(pandas `KeyError` when the column is missing); `generate_identifiers`
(whose exceptions propagate unchanged through the bare `raise`); then —
after `plt.subplots` has opened the figure — `data["tokens"]`
(`KeyError` when missing) and, at the side-table step, `data["module"]`
(`KeyError` when missing).  `plt.close(fig)` is executed only on the
success path, so a failure after `plt.subplots` leaves the figure open. -/
def plot_security_report (input : PyInput) : RenderState × Except PyErr Buffer :=
  match input with
  | .nonTable =>
    (⟨false, false⟩, .error (.typeError "Input argument must be a pandas DataFrame."))
  | .table hasModule hasFailureRate hasTokens rows =>
    if hasFailureRate = false then
      (⟨false, false⟩, .error (.keyError "failureRate"))
    else
      let data := sortValuesDesc rows
      match generate_identifiers (.table hasModule hasFailureRate hasTokens data) with
      | .error e => (⟨false, false⟩, .error e)
      | .ok ids =>
        if hasTokens = false then
          (⟨true, false⟩, .error (.keyError "tokens"))
        else
          let toks := data.map Row.tokens
          let vmin := listMin toks
          let vmax := listMax toks
          let colors := toks.map (fun t => cmapApply (pynormalize vmin vmax t))
          let rates := data.map Row.failureRate
          let maxRate := listMax rates
          let yticks := arange020 maxRate
          let labels := (pyRange020 (pyInt maxRate)).map (fun x => toString x ++ "%")
          if hasModule = false then
            (⟨true, false⟩, .error (.keyError "module"))
          else
            (⟨true, true⟩,
             .ok { identifiers := ids
                   sortedModules := data.map Row.module
                   sortedRates := rates
                   barColors := colors
                   yticks := yticks
                   ytickLabels := labels })

lemma num_letters_eq : num_letters = 26 := rfl

lemma max_identifiers_eq : max_identifiers = 676 := rfl

/-- When every index respects the guard, the identifier loop succeeds and
returns the identifier of each index in order. -/
lemma genLoop_ok (l : List Nat) (h : ∀ i ∈ l, i / num_letters < num_letters) :
    genLoop l = .ok (l.map identifierString) := by
  induction l with
  | nil => rfl
  | cons i rest ih =>
    have hi : i / num_letters < num_letters := h i (List.mem_cons_self i rest)
    have hrest : ∀ j ∈ rest, j / num_letters < num_letters :=
      fun j hj => h j (List.mem_cons_of_mem i hj)
    simp [genLoop, Nat.not_le.mpr hi, ih hrest]

/-- Below the capacity bound every index respects the guard. -/
lemma guard_holds {i : Nat} (h : i < 676) : i / num_letters < num_letters := by
  rw [num_letters_eq]
  omega

/-- On a nonempty table of at most 676 rows, `generate_identifiers`
returns the identifiers of the indices `0, …, N-1`. -/
lemma generate_identifiers_eq_map (b1 b2 b3 : Bool) (rows : List Row)
    (h1 : rows.length ≠ 0) (h2 : rows.length ≤ 676) :
    generate_identifiers (.table b1 b2 b3 rows) =
      .ok ((List.range rows.length).map identifierString) := by
  have hcap : ¬ max_identifiers < rows.length := by
    rw [max_identifiers_eq]; omega
  simp only [generate_identifiers, h1, if_false, hcap, if_false]
  exact genLoop_ok _ (fun i hi => guard_holds (by
    have := List.mem_range.mp hi
    omega))

/-- Prepending one character to a string, at the level of character data. -/
lemma singleton_append_data (c : Char) (s : String) :
    (String.singleton c ++ s).data = c :: s.data := by
  cases s
  rfl

/-- Distinct positions in the alphabet hold distinct letters. -/
lemma alphabet_inj : ∀ a b : Fin 26,
    alphabet.data.getD a 'A' = alphabet.data.getD b 'A' → a = b := by
  decide

/-- The decimal representations of 1, …, 26 are pairwise distinct. -/
lemma repr_inj : ∀ a b : Fin 26,
    Nat.repr (a.val + 1) = Nat.repr (b.val + 1) → a = b := by
  decide

/-- The identifier strings of two indices below the capacity agree only if
the indices agree. -/
lemma identifierString_inj {i j : Nat} (hi : i < 676) (hj : j < 676)
    (h : identifierString i = identifierString j) : i = j := by
  have hdata := congrArg String.data h
  rw [identifierString, identifierString, singleton_append_data,
    singleton_append_data] at hdata
  have hhead : alphabet.data.getD (i / num_letters) 'A' =
      alphabet.data.getD (j / num_letters) 'A' := (List.cons.injEq _ _ _ _ ▸ hdata).1
  have htail : (Nat.repr (i % num_letters + 1)).data =
      (Nat.repr (j % num_letters + 1)).data := (List.cons.injEq _ _ _ _ ▸ hdata).2
  rw [num_letters_eq] at hhead htail
  have hdiv : i / 26 = j / 26 := by
    have := alphabet_inj ⟨i / 26, by omega⟩ ⟨j / 26, by omega⟩ (by
      simpa [num_letters_eq] using hhead)
    simpa using congrArg Fin.val this
  have hmod : i % 26 = j % 26 := by
    have hm1 : i % 26 < 26 := Nat.mod_lt _ (by omega)
    have hm2 : j % 26 < 26 := Nat.mod_lt _ (by omega)
    have := repr_inj ⟨i % 26, hm1⟩ ⟨j % 26, hm2⟩ (by
      apply String.ext
      simpa using htail)
    simpa using congrArg Fin.val this
  omega

/-- C1: for every row count N with 1 ≤ N ≤ 676, `generate_identifiers`
returns a list of exactly N pairwise-distinct identifier strings; the
identifier at 0-based index i is the (i / 26)-th uppercase letter followed
by the decimal number (i % 26) + 1; index 0 yields "A1", index 26 yields
"B1", and index 675 yields "Z26". -/
theorem generate_identifiers_correct (b1 b2 b3 : Bool) (rows : List Row)
    (h1 : 1 ≤ rows.length) (h2 : rows.length ≤ 676) :
    ∃ l, generate_identifiers (.table b1 b2 b3 rows) = .ok l ∧
      l.length = rows.length ∧ l.Nodup ∧
      (∀ i, i < rows.length →
        l[i]? = some (String.singleton (alphabet.data.getD (i / 26) 'A') ++
          Nat.repr (i % 26 + 1))) ∧
      l[0]? = some "A1" ∧
      (26 < rows.length → l[26]? = some "B1") ∧
      (rows.length = 676 → l[675]? = some "Z26") := by
  refine ⟨(List.range rows.length).map identifierString,
    generate_identifiers_eq_map b1 b2 b3 rows (by omega) h2, by simp, ?_, ?_, ?_, ?_, ?_⟩
  · exact (List.nodup_range rows.length).map_on (fun i hi j hj hij =>
      identifierString_inj (by have := List.mem_range.mp hi; omega)
        (by have := List.mem_range.mp hj; omega) hij)
  · intro i hi
    rw [List.getElem?_map, List.getElem?_range hi]
    rfl
  · rw [List.getElem?_map, List.getElem?_range (by omega)]
    decide
  · intro h26
    rw [List.getElem?_map, List.getElem?_range (by omega)]
    decide
  · intro h676
    rw [List.getElem?_map, List.getElem?_range (by omega)]
    decide

/-- Witness for `generate_identifiers_correct` at a concrete 27-row
table. -/
theorem generate_identifiers_correct_witness :
    ∃ l, generate_identifiers (.table true true true
        (List.replicate 27 (⟨"m", 0, 0⟩ : Row))) = .ok l ∧
      l.length = (List.replicate 27 (⟨"m", 0, 0⟩ : Row)).length ∧ l.Nodup ∧
      (∀ i, i < (List.replicate 27 (⟨"m", 0, 0⟩ : Row)).length →
        l[i]? = some (String.singleton (alphabet.data.getD (i / 26) 'A') ++
          Nat.repr (i % 26 + 1))) ∧
      l[0]? = some "A1" ∧
      (26 < (List.replicate 27 (⟨"m", 0, 0⟩ : Row)).length → l[26]? = some "B1") ∧
      ((List.replicate 27 (⟨"m", 0, 0⟩ : Row)).length = 676 →
        l[675]? = some "Z26") :=
  generate_identifiers_correct true true true _ (by decide) (by decide)

/-- C9: `generate_identifiers` is a pure function of the input's size:
any two tabular inputs with the same number of rows produce the same
result. -/
theorem generate_identifiers_pure (b1 b2 b3 c1 c2 c3 : Bool)
    (rows rows' : List Row) (h : rows.length = rows'.length) :
    generate_identifiers (.table b1 b2 b3 rows) =
      generate_identifiers (.table c1 c2 c3 rows') := by
  simp only [generate_identifiers]
  rw [h]

/-- Witness for `generate_identifiers_pure`: two tables with different
flags, rows and values of the same length give the same identifiers. -/
theorem generate_identifiers_pure_witness :
    generate_identifiers (.table true true true [⟨"a", 10, 1⟩]) =
      generate_identifiers (.table false false false [⟨"b", 99, 5⟩]) :=
  generate_identifiers_pure true true true false false false _ _ (by decide)

/-- C10: once the emptiness and capacity checks have passed, every loop
index satisfies i / 26 < 26, so the internal `IndexError` guard is
unreachable and the loop completes. -/
theorem identifier_guard_unreachable (b1 b2 b3 : Bool) (rows : List Row)
    (h1 : 1 ≤ rows.length) (h2 : rows.length ≤ 676) :
    (∀ i, i < rows.length → i / 26 < 26) ∧
    (∀ msg, generate_identifiers (.table b1 b2 b3 rows) ≠
      .error (.indexError msg)) ∧
    (∃ l, generate_identifiers (.table b1 b2 b3 rows) = .ok l) := by
  have hok := generate_identifiers_eq_map b1 b2 b3 rows (by omega) h2
  refine ⟨fun i hi => by omega, fun msg => by simp [hok], ⟨_, hok⟩⟩

/-- Witness for `identifier_guard_unreachable` at a one-row table. -/
theorem identifier_guard_unreachable_witness :
    (∀ i, i < ([⟨"m", 5, 2⟩] : List Row).length → i / 26 < 26) ∧
    (∀ msg, generate_identifiers (.table true true true [⟨"m", 5, 2⟩]) ≠
      .error (.indexError msg)) ∧
    (∃ l, generate_identifiers (.table true true true [⟨"m", 5, 2⟩]) = .ok l) :=
  identifier_guard_unreachable true true true _ (by decide) (by decide)

/-- C5: `generate_identifiers` fails with `TypeError` (`InvalidInput`)
exactly when the input is not a tabular structure, with `ValueError`
(`EmptyInput`) exactly when the row count is 0, with `OverflowError`
(`CapacityExceeded`) exactly when the row count exceeds 676, and succeeds
on every tabular input with 1 ≤ N ≤ 676 rows. -/
theorem generate_identifiers_failure_conditions (input : PyInput) :
    ((∃ msg, generate_identifiers input = .error (.typeError msg)) ↔
      input = .nonTable) ∧
    ((∃ msg, generate_identifiers input = .error (.valueError msg)) ↔
      ∃ b1 b2 b3 rows, input = .table b1 b2 b3 rows ∧ rows.length = 0) ∧
    ((∃ msg, generate_identifiers input = .error (.overflowError msg)) ↔
      ∃ b1 b2 b3 rows, input = .table b1 b2 b3 rows ∧ 676 < rows.length) ∧
    (∀ b1 b2 b3 rows, input = .table b1 b2 b3 rows → 1 ≤ rows.length →
      rows.length ≤ 676 → ∃ l, generate_identifiers input = .ok l) := by
  match input with
  | .nonTable =>
    refine ⟨by simp [generate_identifiers], by simp [generate_identifiers], ?_, ?_⟩
    · simp [generate_identifiers]
    · intro b1 b2 b3 rows h
      exact absurd h (by simp)
  | .table b1 b2 b3 rows =>
    by_cases h0 : rows.length = 0
    · refine ⟨?_, ?_, ?_, ?_⟩
      · simp [generate_identifiers, h0]
      · simp only [generate_identifiers, h0, if_pos rfl]
        exact ⟨fun _ => ⟨b1, b2, b3, rows, rfl, h0⟩, fun _ => ⟨_, rfl⟩⟩
      · simp only [generate_identifiers, h0, if_pos rfl]
        constructor
        · rintro ⟨msg, hmsg⟩
          exact absurd hmsg (by simp)
        · rintro ⟨c1, c2, c3, rows', heq, hlen⟩
          injection heq with e1 e2 e3 e4
          subst e4
          omega
      · intro c1 c2 c3 rows' heq hge hle
        injection heq with e1 e2 e3 e4
        subst e4
        omega
    · by_cases hbig : 676 < rows.length
      · have hcap : max_identifiers < rows.length := by
          rw [max_identifiers_eq]; omega
        refine ⟨?_, ?_, ?_, ?_⟩
        · simp [generate_identifiers, h0, hcap]
        · simp only [generate_identifiers, h0, if_neg h0, if_pos hcap]
          constructor
          · rintro ⟨msg, hmsg⟩
            exact absurd hmsg (by simp)
          · rintro ⟨c1, c2, c3, rows', heq, hlen⟩
            rw [PyInput.table.injEq] at heq
            obtain ⟨-, -, -, e4⟩ := heq
            subst e4
            omega
        · simp only [generate_identifiers, h0, if_neg h0, if_pos hcap]
          exact ⟨fun _ => ⟨b1, b2, b3, rows, rfl, hbig⟩, fun _ => ⟨_, rfl⟩⟩
        · intro c1 c2 c3 rows' heq hge hle
          injection heq with e1 e2 e3 e4
          subst e4
          omega
      · have hok := generate_identifiers_eq_map b1 b2 b3 rows h0 (by omega)
        refine ⟨by simp [hok], ?_, ?_, ?_⟩
        · rw [hok]
          constructor
          · rintro ⟨msg, hmsg⟩
            exact absurd hmsg (by simp)
          · rintro ⟨c1, c2, c3, rows', heq, hlen⟩
            rw [PyInput.table.injEq] at heq
            obtain ⟨-, -, -, e4⟩ := heq
            subst e4
            omega
        · rw [hok]
          constructor
          · rintro ⟨msg, hmsg⟩
            exact absurd hmsg (by simp)
          · rintro ⟨c1, c2, c3, rows', heq, hlen⟩
            rw [PyInput.table.injEq] at heq
            obtain ⟨-, -, -, e4⟩ := heq
            subst e4
            omega
        · intro c1 c2 c3 rows' heq hge hle
          exact ⟨_, hok⟩

/-- Witness for `generate_identifiers_failure_conditions` at a concrete
one-row table (the success clause is exercised with concrete bounds). -/
theorem generate_identifiers_failure_conditions_witness :
    ((∃ msg, generate_identifiers (.table true true true [⟨"m", 5, 2⟩]) =
        .error (.typeError msg)) ↔
      PyInput.table true true true [⟨"m", 5, 2⟩] = .nonTable) ∧
    ((∃ msg, generate_identifiers (.table true true true [⟨"m", 5, 2⟩]) =
        .error (.valueError msg)) ↔
      ∃ b1 b2 b3 rows, PyInput.table true true true [⟨"m", 5, 2⟩] =
        .table b1 b2 b3 rows ∧ rows.length = 0) ∧
    ((∃ msg, generate_identifiers (.table true true true [⟨"m", 5, 2⟩]) =
        .error (.overflowError msg)) ↔
      ∃ b1 b2 b3 rows, PyInput.table true true true [⟨"m", 5, 2⟩] =
        .table b1 b2 b3 rows ∧ 676 < rows.length) ∧
    (∀ b1 b2 b3 rows, PyInput.table true true true [⟨"m", 5, 2⟩] =
        .table b1 b2 b3 rows → 1 ≤ rows.length → rows.length ≤ 676 →
      ∃ l, generate_identifiers (.table true true true [⟨"m", 5, 2⟩]) = .ok l) :=
  generate_identifiers_failure_conditions (.table true true true [⟨"m", 5, 2⟩])

/-- The descending sort is a permutation of the input. -/
lemma sortValuesDesc_perm (rows : List Row) : (sortValuesDesc rows).Perm rows :=
  (List.reverse_perm _).trans
    ((List.perm_insertionSort rowLe rows.reverse).trans (List.reverse_perm rows))

/-- The descending sort is pairwise nonincreasing in `failureRate`. -/
lemma sortValuesDesc_sorted (rows : List Row) :
    (sortValuesDesc rows).Sorted (fun a b => b.failureRate ≤ a.failureRate) := by
  have hs : (List.insertionSort rowLe rows.reverse).Sorted rowLe :=
    List.sorted_insertionSort rowLe rows.reverse
  exact List.pairwise_reverse.mpr hs

/-- Inserting a row whose `failureRate` is the filter key: every row
passed over by `orderedInsert` compares strictly below the inserted one,
so none of them carries the key, and the inserted row heads the filtered
list. -/
lemma filter_orderedInsert_pos (k : ℚ) (a : Row) (ha : a.failureRate = k)
    (s : List Row) :
    (List.orderedInsert rowLe a s).filter (fun r => r.failureRate = k) =
      a :: s.filter (fun r => r.failureRate = k) := by
  induction s with
  | nil => simp [List.orderedInsert, ha]
  | cons b l ih =>
    by_cases h : rowLe a b
    · simp [List.orderedInsert, h, ha]
    · have hb : ¬ b.failureRate = k := by
        intro hbk
        exact h (le_of_eq (ha.trans hbk.symm))
      simp [List.orderedInsert, h, hb, ih]

/-- Inserting a row whose `failureRate` is not the filter key leaves the
filtered list unchanged. -/
lemma filter_orderedInsert_neg (k : ℚ) (a : Row) (ha : ¬ a.failureRate = k)
    (s : List Row) :
    (List.orderedInsert rowLe a s).filter (fun r => r.failureRate = k) =
      s.filter (fun r => r.failureRate = k) := by
  induction s with
  | nil => simp [List.orderedInsert, ha]
  | cons b l ih =>
    by_cases h : rowLe a b
    · simp [List.orderedInsert, h, ha]
    · simp [List.orderedInsert, h, List.filter_cons, ih]

/-- The ascending insertion sort is stable: restricting to the rows of any
fixed `failureRate` gives back the original sublist. -/
lemma filter_insertionSort (k : ℚ) (l : List Row) :
    (List.insertionSort rowLe l).filter (fun r => r.failureRate = k) =
      l.filter (fun r => r.failureRate = k) := by
  induction l with
  | nil => rfl
  | cons a l ih =>
    by_cases ha : a.failureRate = k
    · rw [List.insertionSort, filter_orderedInsert_pos k a ha, ih]
      simp [ha]
    · rw [List.insertionSort, filter_orderedInsert_neg k a ha, ih]
      simp [ha]

/-- C2: the Report Renderer sorts rows by `failureRate` in descending
order with a stable sort: the sorted sequence is a permutation of the
input, pairwise nonincreasing, and for every `failureRate` value the rows
carrying it appear in their original relative order (restricting both
sequences to any fixed rate gives identical sublists).  This reflects
pandas `nargsort`, which reverses values and index around a stable
ascending argsort so that the two reversals cancel on tied keys. -/
theorem sort_descending_stable (rows : List Row) :
    (sortValuesDesc rows).Perm rows ∧
    (sortValuesDesc rows).Sorted (fun a b => b.failureRate ≤ a.failureRate) ∧
    ∀ k : ℚ, (sortValuesDesc rows).filter (fun r => r.failureRate = k) =
      rows.filter (fun r => r.failureRate = k) := by
  refine ⟨sortValuesDesc_perm rows, sortValuesDesc_sorted rows, fun k => ?_⟩
  rw [sortValuesDesc, List.filter_reverse, filter_insertionSort,
    List.filter_reverse, List.reverse_reverse]

/-- C8: on the 3-row table with `failureRate` values [10, 90, 50], the
renderer's sorted order is [90, 50, 10] and identifiers "A1", "A2", "A3"
are assigned to the rows with rate 90, 50 and 10 respectively. -/
theorem plot_identifier_assignment_example :
    Except.map (fun b => (b.identifiers, b.sortedRates, b.sortedModules))
      (plot_security_report (.table true true true
        [⟨"m1", 10, 1⟩, ⟨"m2", 90, 2⟩, ⟨"m3", 50, 3⟩])).2 =
      .ok (["A1", "A2", "A3"], [90, 50, 10], ["m2", "m3", "m1"]) := by decide

/-- C3: every modelled step failure propagates through
`plot_security_report` as exactly the failing step's original exception
(the bare `raise` re-raises the original cause), and a failing call
returns no buffer.  The clauses follow the source's failure points in
order: the `isinstance` check, the `sort_values` column access, the
`generate_identifiers` call, the `data["tokens"]` access and the
`data["module"]` access of the side-table step. -/
theorem plot_error_propagation (b1 b2 b3 : Bool) (rows : List Row) :
    (plot_security_report PyInput.nonTable).2 =
      .error (.typeError "Input argument must be a pandas DataFrame.") ∧
    (b2 = false → (plot_security_report (.table b1 b2 b3 rows)).2 =
      .error (.keyError "failureRate")) ∧
    (∀ e, b2 = true →
      generate_identifiers (.table b1 b2 b3 (sortValuesDesc rows)) = .error e →
      (plot_security_report (.table b1 b2 b3 rows)).2 = .error e) ∧
    (∀ ids, b2 = true → b3 = false →
      generate_identifiers (.table b1 b2 b3 (sortValuesDesc rows)) = .ok ids →
      (plot_security_report (.table b1 b2 b3 rows)).2 =
        .error (.keyError "tokens")) ∧
    (∀ ids, b1 = false → b2 = true → b3 = true →
      generate_identifiers (.table b1 b2 b3 (sortValuesDesc rows)) = .ok ids →
      (plot_security_report (.table b1 b2 b3 rows)).2 =
        .error (.keyError "module")) ∧
    (∀ e buf, (plot_security_report (.table b1 b2 b3 rows)).2 = .error e →
      (plot_security_report (.table b1 b2 b3 rows)).2 ≠ .ok buf) := by
  refine ⟨rfl, ?_, ?_, ?_, ?_, ?_⟩
  · intro h2
    subst h2
    rfl
  · intro e h2 hgen
    subst h2
    simp [plot_security_report, hgen]
  · intro ids h2 h3 hgen
    subst h2
    subst h3
    simp [plot_security_report, hgen]
  · intro ids h1 h2 h3 hgen
    subst h1
    subst h2
    subst h3
    simp [plot_security_report, hgen]
  · intro e buf he hok
    rw [he] at hok
    exact absurd hok (by simp)

/-- Witness for `plot_error_propagation`: the missing-tokens and
missing-module clauses at concrete one-row tables. -/
theorem plot_error_propagation_witness :
    (plot_security_report (.table true true false [⟨"m", 50, 7⟩])).2 =
      .error (.keyError "tokens") ∧
    (plot_security_report (.table false true true [⟨"m", 50, 7⟩])).2 =
      .error (.keyError "module") :=
  ⟨(plot_error_propagation true true false [⟨"m", 50, 7⟩]).2.2.2.1
      ["A1"] rfl rfl (by decide),
    (plot_error_propagation false true true [⟨"m", 50, 7⟩]).2.2.2.2.1
      ["A1"] rfl rfl rfl (by decide)⟩

/-- C4 (code-bug evaluation): on a table whose `tokens` column is missing,
the figure opened by `plt.subplots` is never closed, because
`plt.close(fig)` lies only on the success path; on the success path the
figure is closed. -/
theorem plot_figure_leaked_on_failure :
    plot_security_report (.table true true false [⟨"m", 50, 7⟩]) =
      (⟨true, false⟩, .error (.keyError "tokens")) ∧
    (plot_security_report (.table true true true [⟨"m", 50, 7⟩])).1 =
      ⟨true, true⟩ := by decide

/-- Folding `max` over a constant list returns the constant. -/
lemma foldl_max_const (c : ℚ) : ∀ (xs : List ℚ), (∀ x ∈ xs, x = c) →
    xs.foldl max c = c := by
  intro xs
  induction xs with
  | nil => intro _; rfl
  | cons y ys ih =>
    intro h
    have hy : y = c := h y (List.mem_cons_self y ys)
    have hys : ∀ x ∈ ys, x = c := fun x hx => h x (List.mem_cons_of_mem y hx)
    simp only [List.foldl_cons, hy, max_self]
    exact ih hys

/-- Folding `min` over a constant list returns the constant. -/
lemma foldl_min_const (c : ℚ) : ∀ (xs : List ℚ), (∀ x ∈ xs, x = c) →
    xs.foldl min c = c := by
  intro xs
  induction xs with
  | nil => intro _; rfl
  | cons y ys ih =>
    intro h
    have hy : y = c := h y (List.mem_cons_self y ys)
    have hys : ∀ x ∈ ys, x = c := fun x hx => h x (List.mem_cons_of_mem y hx)
    simp only [List.foldl_cons, hy, min_self]
    exact ih hys

/-- The maximum of a nonempty constant list is the constant. -/
lemma listMax_const {l : List ℚ} {c : ℚ} (hne : l ≠ [])
    (h : ∀ x ∈ l, x = c) : listMax l = c := by
  match l with
  | [] => exact absurd rfl hne
  | x :: xs =>
    have hx : x = c := h x (List.mem_cons_self x xs)
    have hxs : ∀ y ∈ xs, y = c := fun y hy => h y (List.mem_cons_of_mem x hy)
    rw [listMax, hx]
    exact foldl_max_const c xs hxs

/-- The minimum of a nonempty constant list is the constant. -/
lemma listMin_const {l : List ℚ} {c : ℚ} (hne : l ≠ [])
    (h : ∀ x ∈ l, x = c) : listMin l = c := by
  match l with
  | [] => exact absurd rfl hne
  | x :: xs =>
    have hx : x = c := h x (List.mem_cons_self x xs)
    have hxs : ∀ y ∈ xs, y = c := fun y hy => h y (List.mem_cons_of_mem x hy)
    rw [listMin, hx]
    exact foldl_min_const c xs hxs

/-- Mapping a function over a constant list yields a constant list. -/
lemma map_const_list {α β : Type} {l : List α} {c : α} (f : α → β)
    (h : ∀ x ∈ l, x = c) : l.map f = List.replicate l.length (f c) := by
  induction l with
  | nil => rfl
  | cons y ys ih =>
    have hy : y = c := h y (List.mem_cons_self y ys)
    have hys : ∀ x ∈ ys, x = c := fun x hx => h x (List.mem_cons_of_mem y hx)
    simp only [List.map_cons, List.length_cons, List.replicate_succ, hy, ih hys]

/-- C7: when every row carries the same `tokens` value, the color
normalization takes matplotlib's `vmin == vmax` guard branch (returning 0
without dividing), and every bar receives the identical color. -/
theorem color_constant_when_tokens_equal (rows : List Row) (c : ℚ) (buf : Buffer)
    (hne : rows ≠ []) (hall : ∀ r ∈ rows, r.tokens = c)
    (hok : (plot_security_report (.table true true true rows)).2 = .ok buf) :
    (∀ t : ℚ, pynormalize c c t = 0) ∧
    buf.barColors = List.replicate rows.length (cmapApply 0) := by
  refine ⟨fun t => by simp [pynormalize], ?_⟩
  have hperm := sortValuesDesc_perm rows
  have hallS : ∀ r ∈ sortValuesDesc rows, r.tokens = c :=
    fun r hr => hall r (hperm.mem_iff.mp hr)
  have hneS : sortValuesDesc rows ≠ [] := by
    intro h
    apply hne
    have hlen := hperm.length_eq
    rw [h] at hlen
    exact List.eq_nil_of_length_eq_zero hlen.symm
  have htoks : ∀ t ∈ (sortValuesDesc rows).map Row.tokens, t = c := by
    intro t ht
    obtain ⟨r, hr, hrt⟩ := List.mem_map.mp ht
    exact hrt ▸ hallS r hr
  have htoksne : (sortValuesDesc rows).map Row.tokens ≠ [] := by
    simpa using hneS
  have hvmin : listMin ((sortValuesDesc rows).map Row.tokens) = c :=
    listMin_const htoksne htoks
  have hvmax : listMax ((sortValuesDesc rows).map Row.tokens) = c :=
    listMax_const htoksne htoks
  simp only [plot_security_report, Bool.true_eq_false, if_false, reduceIte] at hok
  rcases hgen : generate_identifiers (.table true true true (sortValuesDesc rows))
    with e | ids
  · rw [hgen] at hok
    exact absurd hok (by simp)
  · rw [hgen] at hok
    simp only [Except.ok.injEq] at hok
    subst hok
    simp only [hvmin, hvmax]
    rw [map_const_list (fun t => cmapApply (pynormalize c c t)) htoks]
    simp [pynormalize, hperm.length_eq]

/-- Witness for `color_constant_when_tokens_equal` at a concrete two-row
table with equal `tokens`. -/
theorem color_constant_when_tokens_equal_witness :
    (∀ t : ℚ, pynormalize 7 7 t = 0) ∧
    Buffer.barColors
      { identifiers := ["A1", "A2"]
        sortedModules := ["a", "b"]
        sortedRates := [50, 30]
        barColors := [(248, 177, 149), (248, 177, 149)]
        yticks := [0, 20, 40]
        ytickLabels := ["0%", "20%", "40%"] } =
      List.replicate ([⟨"a", 50, 7⟩, ⟨"b", 30, 7⟩] : List Row).length
        (cmapApply 0) :=
  color_constant_when_tokens_equal [⟨"a", 50, 7⟩, ⟨"b", 30, 7⟩] 7 _
    (by decide) (by decide) (by decide)

end ReportChart
